import Mathlib

/-!  Shallow embedding of the savantsalesai mobile client core:
  the Recording data model (src/app/types/recording.ts), the recording
  registry (src/app/context/RecordingContext.tsx), the capture controller
  and the upload client (src/app/(tabs)/index.tsx, second revision of the
  file, and the older revision kept as src/unnamed/part_001).

  Modelling conventions: JavaScript numbers that only ever hold counts
  (duration in seconds, epoch milliseconds) are Nat; the JSON blob that
  AsyncStorage holds under the single key is represented by a JSON value
  AST (JSON.stringify/JSON.parse of the runtime are the canonical
  text round trip on that AST, so `StorageCell.stored j` stands for the
  serialized text of `j`, `StorageCell.malformed` for a stored text that
  JSON.parse throws on, and `StorageCell.empty` for a missing item);
  a persistence call that may fail is given an explicit success flag,
  and a failing call leaves the cell untouched (the thrown error is
  caught by the surrounding try/catch in every operation). -/

/-- The Recording entity, field for field as declared in
src/app/types/recording.ts: id, uri, duration, timestamp, optional
summary, title. -/
structure Recording where
  id : String
  uri : String
  duration : Nat
  timestamp : Nat
  summary : Option String
  title : String
  deriving DecidableEq, Repr

/-- A JSON value, the image of JSON.parse on well-formed JSON text. -/
inductive Json where
  | str (s : String)
  | num (n : Nat)
  | arr (elems : List Json)
  | obj (fields : List (String × Json))

/-- Property access `o[key]` on a parsed JSON object. -/
def lookupField (fields : List (String × Json)) (key : String) : Option Json :=
  match fields with
  | [] => none
  | (k, v) :: rest => if k = key then some v else lookupField rest key

def asStr : Option Json → Option String
  | some (Json.str s) => some s
  | _ => none

def asNum : Option Json → Option Nat
  | some (Json.num n) => some n
  | _ => none

/-- The JSON object JSON.stringify produces for one Recording; an absent
`summary` field is omitted from the object, as stringify omits
undefined-valued keys. -/
def encodeRecording (r : Recording) : Json :=
  Json.obj
    ([("id", Json.str r.id), ("uri", Json.str r.uri),
      ("duration", Json.num r.duration), ("timestamp", Json.num r.timestamp),
      ("title", Json.str r.title)] ++
      (match r.summary with
       | some s => [("summary", Json.str s)]
       | none => []))

/-- Reading one Recording back out of a parsed JSON value, field by
field as the application consumes it. -/
def decodeRecording (j : Json) : Option Recording :=
  match j with
  | Json.obj fields =>
    match asStr (lookupField fields "id"), asStr (lookupField fields "uri"),
          asNum (lookupField fields "duration"), asNum (lookupField fields "timestamp"),
          asStr (lookupField fields "title") with
    | some i, some u, some d, some t, some ti =>
        some { id := i, uri := u, duration := d, timestamp := t,
               summary := asStr (lookupField fields "summary"), title := ti }
    | _, _, _, _, _ => none
  | _ => none

def decodeRecordingElems : List Json → Option (List Recording)
  | [] => some []
  | j :: js =>
    match decodeRecording j, decodeRecordingElems js with
    | some r, some rs => some (r :: rs)
    | _, _ => none

/-- JSON.stringify of the whole collection: one JSON array. -/
def encodeRecordings (rs : List Recording) : Json :=
  Json.arr (rs.map encodeRecording)

/-- Reading the whole collection back out of a parsed JSON value. -/
def decodeRecordings (j : Json) : Option (List Recording) :=
  match j with
  | Json.arr elems => decodeRecordingElems elems
  | _ => none

/-- The AsyncStorage cell under STORAGE_KEY: missing item, stored text
that JSON.parse throws on, or the serialized form of a JSON value. -/
inductive StorageCell where
  | empty
  | malformed
  | stored (j : Json)

/-- The RecordingProvider state: the in-memory `recordings` useState
value plus the persistent cell it is kept in sync with. -/
structure AppState where
  recordings : List Recording
  storage : StorageCell

/-- Provider mount state: `useState<Recording[]>([])` with nothing yet
persisted. -/
def initState : AppState := { recordings := [], storage := StorageCell.empty }

/-- loadRecordings (RecordingContext.tsx lines 16-25): getItem; a missing
item is falsy and is skipped; JSON.parse throwing on malformed text is
caught (state untouched); otherwise the parsed value becomes the
collection.  The code casts the parsed value without validation, so the
shape-mismatch branch (valid JSON that is not a Recording array) is
unreachable for blobs written by this provider's own save calls; it is
modelled as leaving the state untouched. -/
def loadRecordings (s : AppState) : AppState :=
  match s.storage with
  | StorageCell.empty => s
  | StorageCell.malformed => s
  | StorageCell.stored j =>
    match decodeRecordings j with
    | some rs => { s with recordings := rs }
    | none => s

/-- The `await AsyncStorage.setItem(STORAGE_KEY, JSON.stringify(rs))`
step: on success the cell holds the serialized collection, on failure
it throws and the cell is untouched. -/
def saveRecordings (rs : List Recording) (ok : Bool) (cell : StorageCell) : StorageCell :=
  if ok then StorageCell.stored (encodeRecordings rs) else cell

/-- addRecording (RecordingContext.tsx lines 27-35): append, then
persist, then setRecordings.  When setItem throws, the catch block logs
and setRecordings is never reached, so the state is unchanged. -/
def addRecording (r : Recording) (saveOk : Bool) (s : AppState) : AppState :=
  let updated := s.recordings ++ [r]
  if saveOk then
    { recordings := updated, storage := StorageCell.stored (encodeRecordings updated) }
  else s

/-- deleteRecording (RecordingContext.tsx lines 37-45): filter out every
entry whose id matches, then persist, then setRecordings; on setItem
failure the state is unchanged. -/
def deleteRecording (id : String) (saveOk : Bool) (s : AppState) : AppState :=
  let updated := s.recordings.filter (fun r => r.id != id)
  if saveOk then
    { recordings := updated, storage := StorageCell.stored (encodeRecordings updated) }
  else s

/-- The `Partial<Recording>` argument of updateRecording: each field is
present or absent; a present `summary` key may itself carry the absent
value. -/
structure RecordingUpdates where
  id : Option String := none
  uri : Option String := none
  duration : Option Nat := none
  timestamp : Option Nat := none
  summary : Option (Option String) := none
  title : Option String := none
  deriving DecidableEq, Repr

/-- The object spread `\x7b ...recording, ...updates \x7d`: a key
present in updates overrides the entry's field. -/
def mergeRecording (r : Recording) (u : RecordingUpdates) : Recording :=
  { id := u.id.getD r.id, uri := u.uri.getD r.uri,
    duration := u.duration.getD r.duration, timestamp := u.timestamp.getD r.timestamp,
    summary := u.summary.getD r.summary, title := u.title.getD r.title }

/-- updateRecording (RecordingContext.tsx lines 47-57): map the merge
over entries with matching id, then persist, then setRecordings; on
setItem failure the state is unchanged. -/
def updateRecording (id : String) (u : RecordingUpdates) (saveOk : Bool) (s : AppState) : AppState :=
  let updated := s.recordings.map (fun r => if r.id = id then mergeRecording r u else r)
  if saveOk then
    { recordings := updated, storage := StorageCell.stored (encodeRecordings updated) }
  else s

/-- getRecording (RecordingContext.tsx lines 59-61): synchronous linear
find, absent marker when no entry matches. -/
def getRecording (id : String) (s : AppState) : Option Recording :=
  s.recordings.find? (fun r => r.id == id)

/-- One registry call issued against the provider, with the success flag
of the setItem the call performs. -/
inductive RegOp where
  | add (r : Recording) (saveOk : Bool)
  | del (id : String) (saveOk : Bool)
  deriving Repr

def applyRegOp (op : RegOp) (s : AppState) : AppState :=
  match op with
  | RegOp.add r saveOk => addRecording r saveOk s
  | RegOp.del id saveOk => deleteRecording id saveOk s

def applyRegOps (ops : List RegOp) (s : AppState) : AppState :=
  match ops with
  | [] => s
  | op :: rest => applyRegOps rest (applyRegOp op s)

/-- The recordings passed to addRecording along an operation sequence,
in call order. -/
def addedRecs (ops : List RegOp) : List Recording :=
  match ops with
  | [] => []
  | RegOp.add r _ :: rest => r :: addedRecs rest
  | RegOp.del _ _ :: rest => addedRecs rest

/-- Capture controller state of the screen src/app/(tabs)/index.tsx
(second revision, lines 330-420): the `recording` useState value holds
the active Audio.Recording handle; `openHandles` tracks which OS-level
capture handles have been created and not yet stopped-and-unloaded;
`nextHandle` numbers the fresh handle `Audio.Recording.createAsync`
would return next.  Playback and transcription fields, which the
capture-handle claims do not mention, are not modelled. -/
structure CaptureState where
  recording : Option Nat
  openHandles : List Nat
  nextHandle : Nat
  deriving DecidableEq, Repr

def initCapture : CaptureState :=
  { recording := none, openHandles := [], nextHandle := 0 }

/-- startRecording (index.tsx lines 359-391): a denied permission alerts
and returns with no state change; otherwise stale screen state is
cleared and `Audio.Recording.createAsync` opens a fresh capture handle
which becomes the active one.  The function performs no check that a
capture is already active. -/
def startRecording (granted : Bool) (st : CaptureState) : CaptureState :=
  if granted then
    { recording := some st.nextHandle,
      openHandles := st.openHandles ++ [st.nextHandle],
      nextHandle := st.nextHandle + 1 }
  else st

/-- stopRecording (index.tsx lines 393-420): a no-op when no capture is
active (`if (!recording) return`); otherwise `stopAndUnloadAsync`
releases the handle and the active slot is cleared. -/
def stopRecording (st : CaptureState) : CaptureState :=
  match st.recording with
  | none => st
  | some h =>
    { recording := none, openHandles := st.openHandles.erase h,
      nextHandle := st.nextHandle }

/-- The record button's onPress wiring (index.tsx line 539):
`recording ? stopRecording : startRecording` — a press while a capture
is active issues a stop request, otherwise a start request. -/
def pressRecordButton (granted : Bool) (st : CaptureState) : CaptureState :=
  if st.recording.isSome then stopRecording st else startRecording granted st

/-- The HTTP response the analysis endpoint returns to one upload:
its status code, the text `res.text()` yields, and the relevant fields
of the value `res.json()` yields — `none` when the body is not valid
JSON (`res.json()` throws), otherwise the `transcription` and
`analysis` properties, each absent when the object lacks the key. -/
structure AnalyzeResponse where
  status : Nat
  bodyText : String
  bodyJson : Option (Option String × Option String)
  deriving DecidableEq, Repr

/-- `res.ok`: status in the 2xx range. -/
def respOk (status : Nat) : Bool :=
  200 ≤ status && status ≤ 299

/-- JavaScript truthiness of an optional string property: absent and
empty are falsy. -/
def truthyStr (o : Option String) : Bool :=
  match o with
  | none => false
  | some s => !s.isEmpty

/-- Outcome of one sendAudioForTranscription call. -/
inductive SendResult where
  | skipped
  | ok (transcription analysis : String)
  | httpError (status : Nat) (body : String)
  | invalidFormat
  | jsonError
  | fileMissing
  | done (transcription : Option String)
  deriving DecidableEq, Repr

/-- sendAudioForTranscription (index.tsx second revision, lines
475-527), as a function of the isLoading guard, of whether the audio
file at the uri exists, and of the endpoint's response; the Bool of the
result records whether the fetch was issued.  The code builds the form
data and fetches without consulting the file system — `fileExists` is
accepted and ignored exactly as the code ignores the file's existence.
A non-2xx status throws a `Server error: status - text` error; a 2xx
body missing a truthy `transcription` or `analysis` throws an invalid
response format error; otherwise both fields are stored. -/
def sendAudioForTranscription (isLoading fileExists : Bool)
    (resp : AnalyzeResponse) : SendResult × Bool :=
  if isLoading then (SendResult.skipped, false)
  else if !respOk resp.status then
    (SendResult.httpError resp.status resp.bodyText, true)
  else
    match resp.bodyJson with
    | none => (SendResult.jsonError, true)
    | some (t, a) =>
      if !truthyStr t || !truthyStr a then (SendResult.invalidFormat, true)
      else (SendResult.ok (t.getD "") (a.getD ""), true)

/-- sendAudioForTranscription of the older revision
(src/unnamed/part_001 lines 117-163): `FileSystem.getInfoAsync` is
consulted first and a missing file throws `File does not exist` before
any form data is built or fetch issued; a non-2xx status throws a
server error; otherwise `data.transcription` is stored with no further
validation. -/
def sendAudioForTranscriptionChecked (fileExists : Bool)
    (resp : AnalyzeResponse) : SendResult × Bool :=
  if !fileExists then (SendResult.fileMissing, false)
  else if !respOk resp.status then
    (SendResult.httpError resp.status resp.bodyText, true)
  else
    match resp.bodyJson with
    | none => (SendResult.jsonError, true)
    | some (t, _) => (SendResult.done t, true)

theorem map_id_of_mem {α : Type} (f : α → α) :
    ∀ l : List α, (∀ x ∈ l, f x = x) → l.map f = l
  | [], _ => rfl
  | a :: t, h => by
    simp only [List.map_cons, h a (List.mem_cons_self a t),
      map_id_of_mem f t (fun x hx => h x (List.mem_cons_of_mem a hx))]

/-- A concrete recording entity, shaped as stopRecording creates them. -/
def sampleRec : Recording :=
  { id := "rec_1", uri := "file:sample.m4a", duration := 2, timestamp := 10,
    summary := none, title := "Recording 1" }

/-- Claim C1: starting from the empty registry, after addRecording of
three recordings with ids r1, r2, r3 in that order, getRecording "r2"
returns the r2 entity; after deleteRecording "r2" the stored sequence
is [r1, r3] in that order and getRecording "r2" returns the absent
marker (every operation is total — the code's try/catch means nothing
throws). -/
theorem c1_example_scenario (a b c : Recording)
    (ha : a.id = "r1") (hb : b.id = "r2") (hc : c.id = "r3") :
    getRecording "r2"
      (addRecording c true (addRecording b true (addRecording a true initState))) = some b ∧
    (deleteRecording "r2" true
      (addRecording c true (addRecording b true (addRecording a true initState)))).recordings = [a, c] ∧
    getRecording "r2" (deleteRecording "r2" true
      (addRecording c true (addRecording b true (addRecording a true initState)))) = none := by
  refine ⟨?_, ?_, ?_⟩ <;>
    simp [getRecording, addRecording, deleteRecording, initState, ha, hb, hc]

def recB : Recording :=
  { id := "r2", uri := "file:b.m4a", duration := 3, timestamp := 20,
    summary := none, title := "Recording 2" }

def recC : Recording :=
  { id := "r3", uri := "file:c.m4a", duration := 4, timestamp := 30,
    summary := some "notes", title := "Recording 3" }

def recA : Recording :=
  { id := "r1", uri := "file:a.m4a", duration := 1, timestamp := 5,
    summary := none, title := "Recording 1" }

theorem c1_example_scenario_witness :
    recA.id = "r1" ∧ recB.id = "r2" ∧ recC.id = "r3" ∧
    (getRecording "r2"
      (addRecording recC true (addRecording recB true (addRecording recA true initState))) = some recB ∧
    (deleteRecording "r2" true
      (addRecording recC true (addRecording recB true (addRecording recA true initState)))).recordings = [recA, recC] ∧
    getRecording "r2" (deleteRecording "r2" true
      (addRecording recC true (addRecording recB true (addRecording recA true initState)))) = none) :=
  ⟨rfl, rfl, rfl, c1_example_scenario recA recB recC rfl rfl rfl⟩

/-- Claim C2 counterexample: with the persist step failing, addRecording
on the empty registry leaves the in-memory collection empty — it has not
advanced to the new sequence, contrary to the claim that the optimistic
in-memory mutation survives a save failure. -/
theorem c2_counterexample :
    (addRecording sampleRec false initState).recordings = [] ∧
    (addRecording sampleRec false initState).recordings ≠
      initState.recordings ++ [sampleRec] := by
  decide

/-- Claim C2 (amended): each mutating registry operation persists first
and applies the in-memory mutation only afterwards, so when the save
fails the operation leaves the whole state — in-memory collection and
storage cell — unchanged; when the save succeeds, the in-memory
collection advances to the new sequence. -/
theorem c2_amended_save_failure_leaves_state_unchanged (s : AppState)
    (r : Recording) (id : String) (u : RecordingUpdates) :
    addRecording r false s = s ∧
    deleteRecording id false s = s ∧
    updateRecording id u false s = s ∧
    (addRecording r true s).recordings = s.recordings ++ [r] ∧
    (deleteRecording id true s).recordings = s.recordings.filter (fun x => x.id != id) ∧
    (updateRecording id u true s).recordings =
      s.recordings.map (fun x => if x.id = id then mergeRecording x u else x) :=
  ⟨rfl, rfl, rfl, rfl, rfl, rfl⟩

/-- Claim C10: loadRecordings on a missing store item and on corrupt
(unparseable) stored text both leave the collection empty rather than
failing — the function is total and the fresh provider's empty history
survives either degradation. -/
theorem c10_load_fail_soft :
    (loadRecordings initState).recordings = [] ∧
    (loadRecordings { recordings := [], storage := StorageCell.malformed }).recordings = [] :=
  ⟨rfl, rfl⟩

/-- Claim C4: deleteRecording of an id absent from the collection leaves
the stored sequence unchanged — same length, same contents, same order —
whether or not the persist step succeeds, and it is total (nothing
throws). -/
theorem c4_delete_absent_id_noop (s : AppState) (id : String)
    (h : ∀ r ∈ s.recordings, r.id ≠ id) :
    ∀ saveOk : Bool, (deleteRecording id saveOk s).recordings = s.recordings := by
  intro saveOk
  cases saveOk with
  | false => rfl
  | true =>
    show s.recordings.filter (fun r => r.id != id) = s.recordings
    exact List.filter_eq_self.mpr fun r hr => by
      simpa using h r hr

theorem c4_delete_absent_id_noop_witness :
    (∀ r ∈ (AppState.mk [sampleRec] StorageCell.empty).recordings, r.id ≠ "zzz") ∧
    ∀ saveOk : Bool,
      (deleteRecording "zzz" saveOk (AppState.mk [sampleRec] StorageCell.empty)).recordings =
        [sampleRec] :=
  ⟨by decide, c4_delete_absent_id_noop (AppState.mk [sampleRec] StorageCell.empty) "zzz"
    (by decide)⟩

/-- The `Partial<Recording>` object of the rename flow: only a title
key. -/
def titleUpdate (x : String) : RecordingUpdates := { title := some x }

theorem mergeRecording_titleUpdate (r : Recording) (x : String) :
    mergeRecording r (titleUpdate x) = { r with title := x } := rfl

/-- Claim C3: on a collection holding exactly one entry with the given
id, updateRecording with a title-only partial changes only that entry's
title — every other field of it and every other entry is unchanged in
content and order — and on a collection where the id is absent,
updateRecording leaves the stored sequence unchanged. -/
theorem c3_update_title_frame (l1 l2 : List Recording) (r : Recording)
    (id x : String) (s : AppState)
    (hs : s.recordings = l1 ++ r :: l2) (hr : r.id = id)
    (h1 : ∀ y ∈ l1, y.id ≠ id) (h2 : ∀ y ∈ l2, y.id ≠ id) :
    (updateRecording id (titleUpdate x) true s).recordings =
      l1 ++ { r with title := x } :: l2 ∧
    ∀ t : AppState, (∀ y ∈ t.recordings, y.id ≠ id) →
      ∀ saveOk : Bool,
        (updateRecording id (titleUpdate x) saveOk t).recordings = t.recordings := by
  constructor
  · show (s.recordings.map fun y => if y.id = id then mergeRecording y (titleUpdate x) else y)
      = l1 ++ { r with title := x } :: l2
    rw [hs, List.map_append, List.map_cons, if_pos hr, mergeRecording_titleUpdate,
      map_id_of_mem _ l1 (fun y hy => if_neg (h1 y hy)),
      map_id_of_mem _ l2 (fun y hy => if_neg (h2 y hy))]
  · intro t ht saveOk
    cases saveOk with
    | false => rfl
    | true =>
      show (t.recordings.map fun y => if y.id = id then mergeRecording y (titleUpdate x) else y)
        = t.recordings
      exact map_id_of_mem _ t.recordings (fun y hy => if_neg (ht y hy))

theorem c3_update_title_frame_witness :
    (AppState.mk [recA, recB, recC] StorageCell.empty).recordings = [recA] ++ recB :: [recC] ∧
    recB.id = "r2" ∧ (∀ y ∈ [recA], y.id ≠ "r2") ∧ (∀ y ∈ [recC], y.id ≠ "r2") ∧
    ((updateRecording "r2" (titleUpdate "X") true
        (AppState.mk [recA, recB, recC] StorageCell.empty)).recordings =
      [recA] ++ { recB with title := "X" } :: [recC] ∧
     ∀ t : AppState, (∀ y ∈ t.recordings, y.id ≠ "r2") →
       ∀ saveOk : Bool,
         (updateRecording "r2" (titleUpdate "X") saveOk t).recordings = t.recordings) :=
  ⟨rfl, rfl, by decide, by decide,
   c3_update_title_frame [recA] [recC] recB "r2" "X"
     (AppState.mk [recA, recB, recC] StorageCell.empty) rfl rfl (by decide) (by decide)⟩

theorem applyRegOps_sublist (ops : List RegOp) :
    ∀ s : AppState,
      List.Sublist (applyRegOps ops s).recordings (s.recordings ++ addedRecs ops) := by
  induction ops with
  | nil => intro s; simp [applyRegOps, addedRecs]
  | cons op rest ih =>
    intro s
    cases op with
    | add r saveOk =>
      cases saveOk with
      | true =>
        have h := ih (addRecording r true s)
        show List.Sublist (applyRegOps rest (addRecording r true s)).recordings _
        have : (addRecording r true s).recordings = s.recordings ++ [r] := rfl
        rw [this] at h
        simpa [addedRecs, List.append_assoc] using h
      | false =>
        have h := ih s
        show List.Sublist (applyRegOps rest s).recordings
          (s.recordings ++ addedRecs (RegOp.add r false :: rest))
        refine h.trans ?_
        exact List.Sublist.append_left (List.sublist_cons_self r _) _
    | del id saveOk =>
      cases saveOk with
      | true =>
        have h := ih (deleteRecording id true s)
        show List.Sublist (applyRegOps rest (deleteRecording id true s)).recordings _
        refine h.trans ?_
        show List.Sublist ((s.recordings.filter fun r => r.id != id) ++ addedRecs rest)
          (s.recordings ++ addedRecs (RegOp.del id true :: rest))
        exact (List.filter_sublist _).append_right _
      | false => exact ih s

/-- Claim C5: after any finite sequence of addRecording and
deleteRecording calls starting from the empty store, with all recordings
passed to addRecording carrying pairwise distinct ids, the ids of the
stored entries are pairwise distinct (whatever each call's persist step
did). -/
theorem c5_unique_ids_invariant (ops : List RegOp)
    (h : ((addedRecs ops).map Recording.id).Nodup) :
    ((applyRegOps ops initState).recordings.map Recording.id).Nodup := by
  have hsub := applyRegOps_sublist ops initState
  have hsub' : List.Sublist (applyRegOps ops initState).recordings (addedRecs ops) := by
    simpa [initState] using hsub
  exact h.sublist (hsub'.map Recording.id)

theorem c5_unique_ids_invariant_witness :
    ((addedRecs [RegOp.add recA true, RegOp.add recB true, RegOp.add recC false,
        RegOp.del "r2" true]).map Recording.id).Nodup ∧
    ((applyRegOps [RegOp.add recA true, RegOp.add recB true, RegOp.add recC false,
        RegOp.del "r2" true] initState).recordings.map Recording.id).Nodup :=
  ⟨by decide,
   c5_unique_ids_invariant
     [RegOp.add recA true, RegOp.add recB true, RegOp.add recC false, RegOp.del "r2" true]
     (by decide)⟩

theorem decode_encode_recording (r : Recording) :
    decodeRecording (encodeRecording r) = some r := by
  cases r with
  | mk i u d t sm ti => cases sm <;> rfl

theorem decode_encode_recordings (rs : List Recording) :
    decodeRecordings (encodeRecordings rs) = some rs := by
  show decodeRecordingElems (rs.map encodeRecording) = some rs
  induction rs with
  | nil => rfl
  | cons r rest ih =>
    simp [List.map_cons, decodeRecordingElems, decode_encode_recording, ih]

/-- Claim C6: for every sequence of Recording values, the empty one
included, serializing the collection to the store and reading it back
yields the same sequence field for field — both at the blob level
(decode after encode is the identity) and through the provider
(loadRecordings after a successful save restores exactly the saved
collection). -/
theorem c6_save_load_round_trip (rs : List Recording) (s : AppState) :
    decodeRecordings (encodeRecordings rs) = some rs ∧
    (loadRecordings { s with storage := saveRecordings rs true s.storage }).recordings = rs := by
  refine ⟨decode_encode_recordings rs, ?_⟩
  simp [saveRecordings, loadRecordings, decode_encode_recordings rs]

/-- Claim C7 counterexample: startRecording has no already-capturing
guard.  Invoked on a state with an active capture (permission granted)
it is not a no-op: it replaces the active handle with a freshly created
one, and the previous handle — never stopped — stays open, so two
capture handles are open at once. -/
theorem c7_counterexample :
    startRecording true (startRecording true initCapture) ≠
      startRecording true initCapture ∧
    (startRecording true (startRecording true initCapture)).openHandles.length = 2 := by
  decide

/-- Claim C7 (amended): the start guard lives in the record button's
wiring, not in startRecording itself.  A button press while a capture
is active issues stopRecording — so through the interface only a stop
request transitions out of Capturing, and it clears the active handle;
stopRecording with no active capture is a no-op; and under button
presses the set of open capture handles always equals the active-handle
slot, so at most one capture handle is open, exactly one while
capturing. -/
theorem c7_amended_button_discipline (st : CaptureState) (granted : Bool)
    (hinv : st.openHandles = st.recording.toList) :
    (st.recording.isSome = true →
      pressRecordButton granted st = stopRecording st ∧
      (pressRecordButton granted st).recording = none) ∧
    (st.recording = none → stopRecording st = st) ∧
    (pressRecordButton granted st).openHandles =
      (pressRecordButton granted st).recording.toList := by
  cases hrec : st.recording with
  | none =>
    refine ⟨by simp [hrec], fun _ => by simp [stopRecording, hrec], ?_⟩
    cases granted with
    | true =>
      simp [pressRecordButton, hrec, startRecording, hinv]
    | false =>
      simp [pressRecordButton, hrec, startRecording, hinv]
  | some h =>
    refine ⟨fun _ => ⟨?_, ?_⟩, ?_, ?_⟩
    · simp [pressRecordButton, hrec]
    · simp [pressRecordButton, hrec, stopRecording]
    · intro hn
      exact Option.noConfusion hn
    · simp [pressRecordButton, hrec, stopRecording, hinv]

theorem c7_amended_button_discipline_witness :
    (startRecording true initCapture).openHandles =
      (startRecording true initCapture).recording.toList ∧
    (((startRecording true initCapture).recording.isSome = true →
      pressRecordButton true (startRecording true initCapture) =
        stopRecording (startRecording true initCapture) ∧
      (pressRecordButton true (startRecording true initCapture)).recording = none) ∧
    ((startRecording true initCapture).recording = none →
      stopRecording (startRecording true initCapture) = startRecording true initCapture) ∧
    (pressRecordButton true (startRecording true initCapture)).openHandles =
      (pressRecordButton true (startRecording true initCapture)).recording.toList) :=
  ⟨rfl, c7_amended_button_discipline (startRecording true initCapture) true rfl⟩

/-- Claim C8: the upload contract of sendAudioForTranscription — a 200
response whose JSON body carries transcription T and analysis A yields
those two strings; a 500 response with body text boom yields a failure
carrying 500 and boom; a 200 response whose JSON body is the empty
object yields the malformed-response failure despite the success
status.  In each case the fetch was issued. -/
theorem c8_upload_contract :
    sendAudioForTranscription false true
      { status := 200, bodyText := "", bodyJson := some (some "T", some "A") } =
      (SendResult.ok "T" "A", true) ∧
    sendAudioForTranscription false true
      { status := 500, bodyText := "boom", bodyJson := none } =
      (SendResult.httpError 500 "boom", true) ∧
    sendAudioForTranscription false true
      { status := 200, bodyText := "", bodyJson := some (none, none) } =
      (SendResult.invalidFormat, true) := by
  decide

/-- Claim C9 counterexample: the sendAudioForTranscription of
index.tsx lines 475-527 never consults the file system.  With the
referenced audio file absent and the isLoading guard clear, the network
request is still issued, and the outcome is not a missing-file
precondition failure. -/
theorem c9_counterexample :
    (sendAudioForTranscription false false
      { status := 200, bodyText := "", bodyJson := some (some "T", some "A") }).2 = true ∧
    (sendAudioForTranscription false false
      { status := 200, bodyText := "", bodyJson := some (some "T", some "A") }).1 ≠
      SendResult.fileMissing := by
  decide

theorem send_result_independent_of_file (fe : Bool) (resp : AnalyzeResponse) :
    sendAudioForTranscription false fe resp = sendAudioForTranscription false true resp := rfl

theorem send_always_fetches (fe : Bool) (resp : AnalyzeResponse) :
    (sendAudioForTranscription false fe resp).2 = true := by
  unfold sendAudioForTranscription
  rcases hj : resp.bodyJson with _ | ⟨t, a⟩ <;>
    cases hok : respOk resp.status <;>
      simp only [hj, hok, Bool.not_false, Bool.not_true, if_true, if_false,
        Bool.false_eq_true, ite_false, ite_true] <;>
        first
          | rfl
          | (cases htr : (!truthyStr t || !truthyStr a) <;> simp [htr])

/-- Claim C9 (amended): only the older revision's upload
(src/unnamed/part_001 lines 117-163) verifies the audio file first:
when the file is absent it fails with the File-does-not-exist
precondition error and no network request is issued.  The current
revision's upload (index.tsx lines 475-527) performs no such check —
its behaviour is identical whether or not the file exists, and outside
the isLoading guard the request is always issued. -/
theorem c9_amended_existence_check (resp : AnalyzeResponse) :
    sendAudioForTranscriptionChecked false resp = (SendResult.fileMissing, false) ∧
    ∀ fe : Bool,
      sendAudioForTranscription false fe resp = sendAudioForTranscription false true resp ∧
      (sendAudioForTranscription false fe resp).2 = true :=
  ⟨rfl, fun fe => ⟨send_result_independent_of_file fe resp, send_always_fetches fe resp⟩⟩
